import Mathlib

/-!
Shallow embedding of the shirazeh client-side wiki core (router, title
manager, plugin manager, page-load pipeline) together with proofs about
the properties its specification states.

JavaScript strings are modelled as Lean `String`s (lists of characters);
JS string indices count UTF-16 code units, which coincide with characters
for all text handled here (no astral-plane characters appear in the routes,
messages or configuration values under study).
-/

namespace Shirazeh

/-! ## JavaScript string primitives -/

/-- Prefix test on character lists (`String.prototype.startsWith` core). -/
def listIsPrefixOf : List Char → List Char → Bool
  | [], _ => true
  | _ :: _, [] => false
  | a :: as, b :: bs => a = b && listIsPrefixOf as bs

/-- Substring containment on character lists (`String.prototype.includes` core). -/
def listContainsSub (pat : List Char) : List Char → Bool
  | [] => listIsPrefixOf pat []
  | c :: cs => listIsPrefixOf pat (c :: cs) || listContainsSub pat cs

/-- JS `s.includes(pat)`. -/
def jsIncludes (s pat : String) : Bool := listContainsSub pat.data s.data

/-- JS `s.startsWith(pre)`. -/
def jsStartsWith (s pre : String) : Bool := listIsPrefixOf pre.data s.data

/-- JS `s.substring(n)` / `s.slice(n)` for `n ≥ 0`. -/
def jsSubstringFrom (s : String) (n : Nat) : String := String.mk (s.data.drop n)

/-- JS `s.substring(0, n)` for `n ≥ 0`. -/
def jsSubstringTo (s : String) (n : Nat) : String := String.mk (s.data.take n)

/-- JS `s.length` (UTF-16 code units; characters for the BMP text used here). -/
def jsLength (s : String) : Nat := s.data.length

/-- JS `s.split('#')[0]`. -/
def splitHashHead (s : String) : String := String.mk (s.data.takeWhile (fun c => c ≠ '#'))

/-- JS `s.indexOf(c, start)`, `none` standing for `-1`. -/
def jsIndexOfFrom (s : String) (c : Char) (start : Nat) : Option Nat :=
  match (s.data.drop start).findIdx? (fun d => d = c) with
  | some i => some (start + i)
  | none => none

/-! ## UTF-8 and Base64 (`utils.js`: `utf8ToBase64`, `base64ToUtf8`; global `atob`/`btoa`) -/

/-- UTF-8 bytes of one Unicode scalar value (what `TextEncoder` emits per character). -/
def utf8EncodeChar (c : Char) : List Nat :=
  let n := c.toNat
  if n < 0x80 then [n]
  else if n < 0x800 then [0xC0 + n / 0x40, 0x80 + n % 0x40]
  else if n < 0x10000 then
    [0xE0 + n / 0x1000, 0x80 + n / 0x40 % 0x40, 0x80 + n % 0x40]
  else
    [0xF0 + n / 0x40000, 0x80 + n / 0x1000 % 0x40, 0x80 + n / 0x40 % 0x40, 0x80 + n % 0x40]

/-- UTF-8 byte stream of a string (`new TextEncoder().encode(str)`). -/
def utf8Encode (s : String) : List Nat := (s.data.map utf8EncodeChar).flatten

/-- The standard Base64 alphabet used by `btoa`/`atob`. -/
def b64Alphabet : List Char :=
  "ABCDEFGHIJKLMNOPQRSTUVWXYZabcdefghijklmnopqrstuvwxyz0123456789+/".data

/-- Base64 digit for a 6-bit value. -/
def b64Char (n : Nat) : Char := b64Alphabet.getD n '='

/-- Base64 encoding of a byte list (the effect of `btoa` on a binary string). -/
def base64EncodeBytes : List Nat → List Char
  | b1 :: b2 :: b3 :: rest =>
    let n := b1 * 0x10000 + b2 * 0x100 + b3
    b64Char (n / 0x40000 % 0x40) :: b64Char (n / 0x1000 % 0x40) ::
      b64Char (n / 0x40 % 0x40) :: b64Char (n % 0x40) :: base64EncodeBytes rest
  | [b1, b2] =>
    let n := b1 * 0x400 + b2 * 4
    [b64Char (n / 0x1000 % 0x40), b64Char (n / 0x40 % 0x40), b64Char (n % 0x40), '=']
  | [b1] =>
    let n := b1 * 0x10
    [b64Char (n / 0x40 % 0x40), b64Char (n % 0x40), '=', '=']
  | [] => []

/-- `utils.js` `utf8ToBase64`: UTF-8 encode, then `btoa` the binary string.
The `String.fromCodePoint` / `btoa` pair of the source collapses to Base64
over the UTF-8 bytes; the `catch` fallback never fires on valid input. -/
def utf8ToBase64 (s : String) : String := String.mk (base64EncodeBytes (utf8Encode s))

/-- ASCII whitespace stripped by forgiving-base64 (`atob`). -/
def isAsciiWs (c : Char) : Bool :=
  c = ' ' || c = '\t' || c = '\n' || c = '\x0d' || c = '\x0c'

/-- Value of a Base64 digit. -/
def b64Value (c : Char) : Option Nat := b64Alphabet.findIdx? (fun d => d = c)

/-- Strip up to two trailing padding characters when the length is a multiple of four. -/
def stripBase64Padding (data : List Char) : List Char :=
  if data.length % 4 = 0 then
    match data.reverse with
    | '=' :: '=' :: rest => rest.reverse
    | '=' :: rest => rest.reverse
    | _ => data
  else data

/-- Decode a list of 6-bit values into bytes (leftover bits discarded,
a single leftover digit is an error), as forgiving-base64 does. -/
def decodeB64Groups : List Nat → Option (List Nat)
  | a :: b :: c :: d :: rest => do
    let n := a * 0x40000 + b * 0x1000 + c * 0x40 + d
    let r ← decodeB64Groups rest
    pure (n / 0x10000 :: n / 0x100 % 0x100 :: n % 0x100 :: r)
  | [a, b, c] =>
    let n := a * 0x1000 + b * 0x40 + c
    pure [n / 0x400, n / 4 % 0x100]
  | [a, b] => pure [(a * 0x40 + b) / 0x10]
  | [_] => none
  | [] => pure []

/-- The byte sequence produced by `atob`; `none` models the thrown
`InvalidCharacterError` (caught by `Router.getFilePath`). -/
def atobBytes (s : String) : Option (List Nat) := do
  let data := s.data.filter (fun c => !isAsciiWs c)
  let data := stripBase64Padding data
  if data.length % 4 = 1 then none
  else do
    let vals ← data.mapM b64Value
    decodeB64Groups vals

/-- Global `atob`: forgiving-base64 decode to a latin-1 string (one character per byte). -/
def atob (s : String) : Option String :=
  (atobBytes s).map (fun bs => String.mk (bs.map Char.ofNat))

/-- Strict UTF-8 decoding of a byte list. `TextDecoder` in its default
(non-fatal) mode substitutes U+FFFD on errors; only valid sequences are
exercised here, so malformed input is modelled as `none`. -/
def utf8Decode : List Nat → Option (List Char)
  | [] => some []
  | b :: bs =>
    if b < 0x80 then (utf8Decode bs).map (fun r => Char.ofNat b :: r)
    else if 0xC2 ≤ b ∧ b < 0xE0 then
      match bs with
      | b2 :: rest =>
        if 0x80 ≤ b2 ∧ b2 < 0xC0 then
          (utf8Decode rest).map (fun r => Char.ofNat ((b - 0xC0) * 0x40 + (b2 - 0x80)) :: r)
        else none
      | [] => none
    else if 0xE0 ≤ b ∧ b < 0xF0 then
      match bs with
      | b2 :: b3 :: rest =>
        if (0x80 ≤ b2 ∧ b2 < 0xC0) ∧ (0x80 ≤ b3 ∧ b3 < 0xC0) then
          let n := (b - 0xE0) * 0x1000 + (b2 - 0x80) * 0x40 + (b3 - 0x80)
          if 0x800 ≤ n ∧ ¬(0xD800 ≤ n ∧ n < 0xE000) then
            (utf8Decode rest).map (fun r => Char.ofNat n :: r)
          else none
        else none
      | _ => none
    else if 0xF0 ≤ b ∧ b < 0xF5 then
      match bs with
      | b2 :: b3 :: b4 :: rest =>
        if (0x80 ≤ b2 ∧ b2 < 0xC0) ∧ (0x80 ≤ b3 ∧ b3 < 0xC0) ∧ (0x80 ≤ b4 ∧ b4 < 0xC0) then
          let n := (b - 0xF0) * 0x40000 + (b2 - 0x80) * 0x1000 + (b3 - 0x80) * 0x40 + (b4 - 0x80)
          if 0x10000 ≤ n ∧ n < 0x110000 then
            (utf8Decode rest).map (fun r => Char.ofNat n :: r)
          else none
        else none
      | _ => none
    else none

/-- `utils.js` `base64ToUtf8`: `atob`, then interpret the bytes as UTF-8. -/
def base64ToUtf8 (b64 : String) : Option String :=
  (atobBytes b64).bind (fun bs => (utf8Decode bs).map String.mk)

/-! ## Router (`src/core/router.js`) -/

/-- Router state: only the configured default page matters for path mapping. -/
structure Router where
  defaultPage : String

/-- `Router.getFilePath`: `/` maps to the default page; a `/remote/`-prefixed
path has its remainder decoded with `atob` (falling back to the default page
when decoding throws); any other path drops the leading slash and gains `.md`. -/
def Router.getFilePath (r : Router) (path : String) : String :=
  if path = "/" then r.defaultPage
  else if jsStartsWith path "/remote/" then
    match atob (jsSubstringFrom path 8) with
    | some url => url
    | none => r.defaultPage
  else jsSubstringFrom path 1 ++ ".md"

/-! ## TitleManager (`titleManager.js`) -/

/-- The slice of `config.title` read by `_formatTitle`. -/
structure TitleConfig where
  includeWiki : Bool
  order : String
  separator : String

/-- The combination step of `TitleManager._formatTitle` before truncation:
when `includeWiki` is set, the order is not `page-only` and the app name is
non-empty (truthy), the page title is joined with the app name using the
configured separator and order. -/
def combineTitle (cfg : TitleConfig) (appName pageTitle : String) : String :=
  if cfg.includeWiki && !(cfg.order == "page-only") && !(appName == "") then
    if cfg.order == "wiki-first" then appName ++ cfg.separator ++ pageTitle
    else pageTitle ++ cfg.separator ++ appName
  else pageTitle

/-- `TitleManager._formatTitle`: combine, then truncate titles longer than
80 units to their first 77 followed by an ellipsis marker. -/
def formatTitle (cfg : TitleConfig) (appName pageTitle : String) : String :=
  let finalTitle := combineTitle cfg appName pageTitle
  if jsLength finalTitle > 80 then jsSubstringTo finalTitle 77 ++ "..." else finalTitle

/-! ## PluginManager (`pluginManager.js`) -/

/-- A thrown JavaScript error (only its message is observable here). -/
inductive JsError where
  | error (msg : String)
deriving DecidableEq, Repr

/-- Behaviour of one configured plugin module, as observed by `loadPlugins`:
whether its dynamic import resolves, whether the module has a default-export
class, and whether an `onInit` hook exists and throws (`none` = no hook,
`some true` = hook throws, `some false` = hook succeeds). The instantiated
plugin is identified with this record. -/
structure PluginBehavior where
  id : Nat
  importOk : Bool
  hasDefault : Bool
  onInit : Option Bool
deriving DecidableEq, Repr

/-- The body of the per-plugin async closure in `loadPlugins`, without its
`try`/`catch`: import (may reject), check the default export, instantiate,
run `onInit` if present (may throw), and report the instance to push.
A module without a default-export class logs an error and pushes nothing. -/
def pluginBody (p : PluginBehavior) : Except JsError (Option PluginBehavior) :=
  if !p.importOk then .error (.error ("Failed to load plugin: " ++ toString p.id))
  else if p.hasDefault then
    if p.onInit = some true then .error (.error "onInit threw")
    else .ok (some p)
  else .ok none

/-- The per-plugin closure with its `catch`: a rejection is logged and the
plugin is simply not pushed. -/
def pluginTask (p : PluginBehavior) : Option PluginBehavior :=
  match pluginBody p with
  | .ok r => r
  | .error _ => none

/-- The values `loadPlugins` may receive as its `pluginPaths` argument:
a missing argument (undefined, which the `= []` default replaces), `null`,
an array, or any other non-array value (truthy or falsy). -/
inductive PluginPathsArg where
  | undefined
  | null
  | arr (ps : List PluginBehavior)
  | other (truthy : Bool)

/-- The plugin manager's mutable state: the active plugin list. -/
structure PluginManagerState where
  plugins : List PluginBehavior
deriving DecidableEq, Repr

/-- `PluginManager.loadPlugins`: a missing argument defaults to `[]`; `null`
and non-array values fail the guard and return at once; an array is mapped
over per-plugin tasks whose results are pushed onto the active list. Every
task wraps its work in `try`/`catch`, so the surrounding `Promise.all`
always resolves and the state gains exactly the successful instances.
(Pushes happen in completion order of the concurrent imports; the list
order used here is the configured order, and every property proved below
is order-independent.) -/
def loadPlugins (st : PluginManagerState) (arg : PluginPathsArg) :
    Except JsError PluginManagerState :=
  match arg with
  | .undefined => .ok st
  | .null => .ok st
  | .other _ => .ok st
  | .arr ps => .ok { plugins := st.plugins ++ ps.filterMap pluginTask }

/-- Behaviour of one active plugin under `notify`: which event methods it
exposes and which of them throw when invoked. -/
structure NotifyPlugin where
  id : Nat
  handles : String → Bool
  throwsOn : String → Bool

/-- One duck-typed handler call `plugin[eventName](data)`: the invocation is
recorded (the handler did receive the event and its data), and the call
throws when the plugin's handler does. -/
def invokeHandler {α : Type} (p : NotifyPlugin) (ev : String) (d : α) :
    List (Nat × α) × Except JsError Unit :=
  ([(p.id, d)], if p.throwsOn ev then .error (.error "handler threw") else .ok ())

/-- `PluginManager.notify`: iterate the active plugin list in order; for each
plugin exposing a matching method, invoke it inside `try`/`catch` (an
exception is logged and the loop continues). The result is the invocation
trace: which plugin received which data, in order. -/
def notify {α : Type} : List NotifyPlugin → String → α → List (Nat × α)
  | [], _, _ => []
  | p :: rest, ev, d =>
    if p.handles ev then
      let (tr, res) := invokeHandler p ev d
      match res with
      | .ok _ => tr ++ notify rest ev d
      | .error _ => tr ++ notify rest ev d
    else notify rest ev d

/-! ## URL resolution (`new URL(relativeUrl, baseUrl)`), hierarchical http(s) subset -/

/-- ASCII letter. -/
def isAlphaChar (c : Char) : Bool :=
  (('a' ≤ c) && (c ≤ 'z')) || (('A' ≤ c) && (c ≤ 'Z'))

/-- Characters allowed after the first one in a URL scheme. -/
def isSchemeRestChar (c : Char) : Bool :=
  isAlphaChar c || (('0' ≤ c) && (c ≤ '9')) || c = '+' || c = '-' || c = '.'

/-- Tail of a scheme test: scheme characters up to a colon. -/
def schemeTail : List Char → Bool
  | [] => false
  | c :: cs => if c = ':' then true else isSchemeRestChar c && schemeTail cs

/-- Whether a character list begins with `scheme:`; `new URL(s)` succeeds
exactly on such absolute references (given a well-formed remainder). -/
def hasScheme : List Char → Bool
  | [] => false
  | c :: cs => isAlphaChar c && schemeTail cs

/-- `fileReader.js` `isAbsoluteUrl`: whether `new URL(path)` succeeds. -/
def isAbsoluteUrl (s : String) : Bool := hasScheme s.data

/-- Split a character list at the first character satisfying `p`
(the separator stays with the second part). -/
def splitFirst (p : Char → Bool) (cs : List Char) : List Char × List Char :=
  (cs.takeWhile (fun c => !p c), cs.dropWhile (fun c => !p c))

/-- Parsed hierarchical http(s) URL: origin (scheme plus authority),
absolute path, query (with its `?` if present); the fragment is dropped. -/
structure HttpUrl where
  origin : String
  path : String
  query : String
deriving DecidableEq, Repr

/-- Parse an absolute http(s) URL into origin, path and query. -/
def parseHttpUrl (s : String) : Option HttpUrl :=
  let schemeLen : Nat :=
    if jsStartsWith s "https://" then 8 else if jsStartsWith s "http://" then 7 else 0
  if schemeLen = 0 then none
  else
    let afterScheme := s.data.drop schemeLen
    let (host, rest) := splitFirst (fun c => c = '/' || c = '?' || c = '#') afterScheme
    if host.isEmpty then none
    else
      let (pathPart, qf) := splitFirst (fun c => c = '?' || c = '#') rest
      let (queryPart, _frag) := splitFirst (fun c => c = '#') qf
      some { origin := String.mk (s.data.take schemeLen ++ host)
             path := if pathPart.isEmpty then "/" else String.mk pathPart
             query := String.mk queryPart }

/-- The directory of a URL path: everything up to and including the last `/`. -/
def dirOf (p : String) : String :=
  String.mk ((p.data.reverse.dropWhile (fun c => c ≠ '/')).reverse)

/-- Split a character list into path segments at `/` (empty segments kept). -/
def splitSegs : List Char → List (List Char)
  | [] => [[]]
  | c :: cs =>
    if c = '/' then [] :: splitSegs cs
    else
      match splitSegs cs with
      | s :: rest => (c :: s) :: rest
      | [] => [[c]]

/-- Join path segments with `/`. -/
def joinSegs : List (List Char) → List Char
  | [] => []
  | [s] => s
  | s :: rest => s ++ '/' :: joinSegs rest

/-- Resolve `.` and `..` path segments (the URL path state machine: `..` pops
the previous segment, `.` is dropped, and either as the final segment leaves
a trailing slash, represented by a final empty segment). -/
def normalizeSegs : List (List Char) → List (List Char) → List (List Char)
  | stack, [] => stack.reverse
  | stack, seg :: rest =>
    if seg = ['.', '.'] then
      let stack1 := match stack with | _ :: t => t | [] => []
      if rest.isEmpty then ([] :: stack1).reverse else normalizeSegs stack1 rest
    else if seg = ['.'] then
      if rest.isEmpty then ([] :: stack).reverse else normalizeSegs stack rest
    else normalizeSegs (seg :: stack) rest

/-- `new URL(rel, base).href` for the inputs the pipeline produces: the
reference is trimmed of control-and-space characters and internal tabs/newlines;
a reference with a scheme is returned as-is (an absolute reference —
canonicalization beyond this is not modelled, and only non-http(s) schemes
such as `data:` reach this branch through the rewriter); otherwise the base
must parse as a hierarchical http(s) URL and the reference is resolved
against it segment-wise. Percent-encoding of the resolved path is not
modelled (no character needing it appears in the inputs under study), and a
protocol-relative `//host` reference (excluded by the rewriter's lookahead)
is out of scope. `none` models the constructor throwing. -/
def resolveUrl (rel base : String) : Option String :=
  let r := ((rel.data.dropWhile (fun c => c.toNat ≤ 0x20)).reverse.dropWhile
      (fun c => c.toNat ≤ 0x20)).reverse.filter
      (fun c => !(c = '\t' || c = '\n' || c = '\x0d'))
  if hasScheme r then some (String.mk r)
  else
    match parseHttpUrl base with
    | none => none
    | some b =>
      if r.isEmpty then some (b.origin ++ b.path ++ b.query)
      else
        let (noFrag, frag) := splitFirst (fun c => c = '#') r
        let (relPath, query) := splitFirst (fun c => c = '?') noFrag
        let suffix := String.mk query ++ String.mk frag
        if relPath.isEmpty then some (b.origin ++ b.path ++ suffix)
        else
          let mergedPath : String :=
            if relPath.head? = some '/' then String.mk relPath
            else dirOf b.path ++ String.mk relPath
          let segs := (splitSegs mergedPath.data).drop 1
          let normPath := '/' :: joinSegs (normalizeSegs [] segs)
          some (b.origin ++ String.mk normPath ++ suffix)

/-! ## The rewriter regex `/(!?\[.*?\])\(\s*(?!#|data:|https?:|\/\/)(.*?)\s*\)/g`
(`PageManager._rewriteRemoteContent`), embedded as a leftmost-match scanner
with the engine's lazy-quantifier and lookahead backtracking. -/

/-- JS regex `\s` (WhiteSpace plus LineTerminator). -/
def isJsWs (c : Char) : Bool :=
  c = ' ' || c = '\t' || c = '\n' || c = '\x0b' || c = '\x0c' || c = '\x0d' ||
  c = '\xa0' || c.toNat = 0x1680 || (0x2000 ≤ c.toNat && c.toNat ≤ 0x200a) ||
  c.toNat = 0x2028 || c.toNat = 0x2029 || c.toNat = 0x202f || c.toNat = 0x205f ||
  c.toNat = 0x3000 || c.toNat = 0xfeff

/-- JS regex line terminators, which `.` does not match. -/
def isLineTerm (c : Char) : Bool :=
  c = '\n' || c = '\x0d' || c.toNat = 0x2028 || c.toNat = 0x2029

/-- The negative lookahead `(?!#|data:|https?:|\/\/)`. -/
def lookaheadOk (cs : List Char) : Bool :=
  !(listIsPrefixOf "#".data cs || listIsPrefixOf "data:".data cs ||
    listIsPrefixOf "http:".data cs || listIsPrefixOf "https:".data cs ||
    listIsPrefixOf "//".data cs)

/-- Attempt to match the pattern tail `\s*\)` at the current position,
returning the remainder after the closing parenthesis. -/
def tryGapParen : List Char → Option (List Char)
  | [] => none
  | c :: cs => if c = ')' then some cs else if isJsWs c then tryGapParen cs else none

/-- The lazy group-and-tail `(.*?)\s*\)`: the shortest capture (of
non-line-terminator characters) after which `\s*\)` matches. Returns the
capture and the remainder after `)`. -/
def lazyUrl : List Char → Option (List Char × List Char)
  | [] => none
  | c :: cs =>
    match tryGapParen (c :: cs) with
    | some rest => some ([], rest)
    | none =>
      if isLineTerm c then none
      else (lazyUrl cs).map (fun p => (c :: p.1, p.2))

/-- Backtracking of the greedy `\s*` before the lookahead: try the current
position (maximal whitespace consumed), then give back one whitespace
character at a time. At each position the lookahead must pass before the
lazy group is attempted. -/
def giveBack : List Char → List Char → Option (List Char × List Char)
  | [], cs => if lookaheadOk cs then lazyUrl cs else none
  | w :: revWs, cs =>
    match (if lookaheadOk cs then lazyUrl cs else none) with
    | some r => some r
    | none => giveBack revWs (w :: cs)

/-- The parenthesised part `\(\s*(?!...)(.*?)\s*\)` of the pattern. -/
def matchParen : List Char → Option (List Char × List Char)
  | [] => none
  | c :: cs =>
    if c = '(' then giveBack (cs.takeWhile isJsWs).reverse (cs.dropWhile isJsWs)
    else none

/-- The lazy label `.*?\]` followed by the parenthesised part: the engine
extends the label past a `]` whose parenthesised part fails to match.
Returns label, URL capture, and the remainder after the match. -/
def lazyBracket : List Char → Option (List Char × List Char × List Char)
  | [] => none
  | c :: cs =>
    if c = ']' then
      match matchParen cs with
      | some (u, rest) => some ([], u, rest)
      | none => (lazyBracket cs).map (fun t => (']' :: t.1, t.2.1, t.2.2))
    else if isLineTerm c then none
    else (lazyBracket cs).map (fun t => (c :: t.1, t.2.1, t.2.2))

/-- Attempt the whole pattern at the current position (`!?\[` then the rest):
returns (is-image, label, URL capture, remainder). An `!` not followed by
`[` matches neither alternative of `!?\[`. -/
def matchLink : List Char → Option (Bool × List Char × List Char × List Char)
  | [] => none
  | c :: cs =>
    if c = '!' then
      match cs with
      | [] => none
      | c2 :: cs2 =>
        if c2 = '[' then (lazyBracket cs2).map (fun t => (true, t.1, t.2.1, t.2.2))
        else none
    else if c = '[' then (lazyBracket cs).map (fun t => (false, t.1, t.2.1, t.2.2))
    else none

/-- A successful `tryGapParen` consumes at least the closing parenthesis. -/
theorem tryGapParen_length :
    ∀ (cs r : List Char), tryGapParen cs = some r → r.length < cs.length := by
  intro cs
  induction cs with
  | nil => intro r h; simp [tryGapParen] at h
  | cons c cs ih =>
    intro r h
    simp only [tryGapParen] at h
    split at h
    · cases h; simp
    · split at h
      · exact Nat.lt_succ_of_lt (ih r h)
      · cases h

/-- A successful `lazyUrl` consumes at least the closing parenthesis. -/
theorem lazyUrl_length :
    ∀ (cs u r : List Char), lazyUrl cs = some (u, r) → r.length < cs.length := by
  intro cs
  induction cs with
  | nil => intro u r h; simp [lazyUrl] at h
  | cons c cs ih =>
    intro u r h
    simp only [lazyUrl] at h
    split at h
    · rename_i rest heq
      simp only [Option.some.injEq, Prod.mk.injEq] at h
      obtain ⟨rfl, rfl⟩ := h
      exact tryGapParen_length _ _ heq
    · split at h
      · cases h
      · simp only [Option.map_eq_some'] at h
        obtain ⟨⟨u1, r1⟩, hlz, hp⟩ := h
        injection hp with hp1 hp2
        subst hp1
        subst hp2
        exact Nat.lt_succ_of_lt (ih u1 r1 hlz)

/-- A successful `giveBack` consumes at least the closing parenthesis. -/
theorem giveBack_length :
    ∀ (revWs cs u r : List Char), giveBack revWs cs = some (u, r) →
      r.length < revWs.length + cs.length := by
  intro revWs
  induction revWs with
  | nil =>
    intro cs u r h
    simp only [giveBack] at h
    split at h
    · simpa using lazyUrl_length _ _ _ h
    · cases h
  | cons w revWs ih =>
    intro cs u r h
    simp only [giveBack] at h
    split at h
    · rename_i p heq
      obtain ⟨u1, r1⟩ := p
      simp only [Option.some.injEq, Prod.mk.injEq] at h
      obtain ⟨rfl, rfl⟩ := h
      split at heq
      · have := lazyUrl_length _ _ _ heq
        simp only [List.length_cons]
        omega
      · cases heq
    · have := ih (w :: cs) u r h
      simp only [List.length_cons] at this ⊢
      omega

/-- A successful `matchParen` consumes at least the two parentheses. -/
theorem matchParen_length :
    ∀ (cs u r : List Char), matchParen cs = some (u, r) → r.length < cs.length := by
  intro cs u r h
  cases cs with
  | nil => simp [matchParen] at h
  | cons c cs =>
    simp only [matchParen] at h
    split at h
    · have hgb := giveBack_length _ _ _ _ h
      have hlen : ∀ (l : List Char), (l.takeWhile isJsWs).length + (l.dropWhile isJsWs).length = l.length := by
        intro l
        induction l with
        | nil => simp
        | cons x xs ih =>
          by_cases hx : isJsWs x
          · simp [List.takeWhile_cons, List.dropWhile_cons, hx]
            omega
          · simp [List.takeWhile_cons, List.dropWhile_cons, hx]
      have hlen2 := hlen cs
      simp only [List.length_reverse] at hgb
      simp only [List.length_cons]
      omega
    · cases h

/-- A successful `lazyBracket` consumes at least `](`…`)`. -/
theorem lazyBracket_length :
    ∀ (cs l u r : List Char), lazyBracket cs = some (l, u, r) → r.length < cs.length := by
  intro cs
  induction cs with
  | nil => intro l u r h; simp [lazyBracket] at h
  | cons c cs ih =>
    intro l u r h
    simp only [lazyBracket] at h
    split at h
    · split at h
      · rename_i u1 r1 heq
        simp only [Option.some.injEq, Prod.mk.injEq] at h
        obtain ⟨rfl, rfl, rfl⟩ := h
        exact Nat.lt_succ_of_lt (matchParen_length _ _ _ heq)
      · simp only [Option.map_eq_some'] at h
        obtain ⟨⟨l1, u1, r1⟩, hlb, hp⟩ := h
        injection hp with hp1 hp2
        injection hp2 with hp2 hp3
        subst hp1
        subst hp2
        subst hp3
        exact Nat.lt_succ_of_lt (ih l1 u1 r1 hlb)
    · split at h
      · cases h
      · simp only [Option.map_eq_some'] at h
        obtain ⟨⟨l1, u1, r1⟩, hlb, hp⟩ := h
        injection hp with hp1 hp2
        injection hp2 with hp2 hp3
        subst hp1
        subst hp2
        subst hp3
        exact Nat.lt_succ_of_lt (ih l1 u1 r1 hlb)

/-- A successful `matchLink` strictly consumes input. -/
theorem matchLink_length :
    ∀ (cs : List Char) (i : Bool) (l u r : List Char),
      matchLink cs = some (i, l, u, r) → r.length < cs.length := by
  intro cs
  cases cs with
  | nil => intro i l u r h; simp [matchLink] at h
  | cons c cs =>
    intro i l u r h
    simp only [matchLink] at h
    by_cases hc : c = '!'
    · rw [if_pos hc] at h
      cases cs with
      | nil => cases h
      | cons c2 cs2 =>
        have h2 : (if c2 = '[' then
            Option.map (fun t => (true, t.1, t.2.1, t.2.2)) (lazyBracket cs2)
          else none) = some (i, l, u, r) := h
        by_cases hc2 : c2 = '['
        · rw [if_pos hc2, Option.map_eq_some'] at h2
          obtain ⟨⟨l1, u1, r1⟩, hlb, hp⟩ := h2
          injection hp with hp0 hp1
          injection hp1 with hp1 hp2
          injection hp2 with hp2 hp3
          subst hp1
          subst hp2
          subst hp3
          exact Nat.lt_succ_of_lt (Nat.lt_succ_of_lt (lazyBracket_length _ _ _ _ hlb))
        · rw [if_neg hc2] at h2
          cases h2
    · rw [if_neg hc] at h
      by_cases hcb : c = '['
      · rw [if_pos hcb, Option.map_eq_some'] at h
        obtain ⟨⟨l1, u1, r1⟩, hlb, hp⟩ := h
        injection hp with hp0 hp1
        injection hp1 with hp1 hp2
        injection hp2 with hp2 hp3
        subst hp1
        subst hp2
        subst hp3
        exact Nat.lt_succ_of_lt (lazyBracket_length _ _ _ _ hlb)
      · rw [if_neg hcb] at h
        cases h

/-- The replacement callback of `_rewriteRemoteContent`: resolve the captured
reference against the document's own URL; on failure (`new URL` throwing)
warn and return the matched text unchanged; images become the absolute URL,
links become the `#/remote/<base64>` indirection route. -/
def rewriteMatch (base : String) (isImg : Bool) (label url matched : List Char) :
    List Char :=
  match resolveUrl (String.mk url) base with
  | none => matched
  | some abs =>
    let pre := (if isImg then "![" else "[") ++ String.mk label ++ "]"
    if isImg then (pre ++ "(" ++ abs ++ ")").data
    else (pre ++ "(#/remote/" ++ utf8ToBase64 abs ++ ")").data

/-- `String.prototype.replace` with the global regex: scan left to right,
replacing each leftmost non-overlapping match and copying everything else. -/
def rewriteScan (base : String) : List Char → List Char
  | [] => []
  | c :: cs =>
    match h : matchLink (c :: cs) with
    | some (isImg, label, url, rest) =>
      rewriteMatch base isImg label url
          ((c :: cs).take ((c :: cs).length - rest.length)) ++
        rewriteScan base rest
    | none => c :: rewriteScan base cs
termination_by cs => cs.length
decreasing_by
  · exact matchLink_length _ _ _ _ _ h
  · simp

/-- `PageManager._rewriteRemoteContent`. -/
def rewriteRemoteContent (markdown baseUrl : String) : String :=
  String.mk (rewriteScan baseUrl markdown.data)

/-! ## Page-load pipeline (`pageManager.js`, `fileReader.js`, `domRenderer.js`) -/

/-- Outcome of `fetch(url)` followed by `response.ok` / `response.text()`:
a successful response with its text, a non-2xx response with its status, or
a rejected fetch promise (transport failure) with the rejection's message. -/
inductive FetchOutcome where
  | ok (body : String)
  | httpError (status : Nat)
  | reject (msg : String)
deriving DecidableEq, Repr

/-- `config.remote`. An absent or empty `corsProxyUrl` (falsy in JS) is `none`. -/
structure RemoteConfig where
  enabled : Bool
  corsProxyUrl : Option String
deriving DecidableEq, Repr

/-- The slice of configuration the page-load pipeline reads. -/
structure Config where
  remote : Option RemoteConfig
  notFoundPage : String
deriving DecidableEq, Repr

/-- Truthiness of `config.remote && config.remote.enabled`. -/
def remoteEnabled (cfg : Config) : Bool :=
  match cfg.remote with
  | some rc => rc.enabled
  | none => false

/-- The pipeline's environment: the network, the markdown parser, the app's
path resolution, sidebar presence, and `decodeURIComponent`. -/
structure Env where
  fetch : String → FetchOutcome
  parse : String → String
  resolvePath : String → String
  hasSidebar : Bool
  decodeURIComponent : String → String

/-- Observable side effects of one `loadPage` run, in order. -/
inductive Ev where
  | renderLoading
  | fetchAttempt (url : String)
  | renderContent (html : String)
  | updateTitle
  | notifyPlugins (eventName : String)
  | setActiveLink (path : Option String)
  | closeMobileSidebar
  | scrollToAnchor (anchorId : String)
  | renderError (message : String)
deriving DecidableEq, Repr

/-- The URL actually fetched by `fetchContent`: the CORS proxy is prepended
only for absolute URLs, only when remote loading is enabled and a proxy is
configured. -/
def fetchUrlOf (cfg : Config) (filePath : String) : String :=
  if isAbsoluteUrl filePath then
    match cfg.remote with
    | some rc =>
      match rc.corsProxyUrl with
      | some proxy => if rc.enabled then proxy ++ filePath else filePath
      | none => filePath
    | none => filePath
  else filePath

/-- The diagnostic message thrown by `fetchContent` on a non-ok response. -/
def fetchErrorMsg (filePath : String) (status : Nat) : String :=
  "File " ++ (filePath ++ (" not found. (Status: " ++ (toString status ++ ")")))

/-- `fileReader.js` `fetchContent`: compute the fetch URL, perform the fetch
(recorded as an event), and either return the text, throw the not-found
diagnostic on a non-ok response, or propagate a rejected fetch unchanged. -/
def fetchContent (env : Env) (cfg : Config) (filePath : String) :
    List Ev × Except JsError String :=
  let fetchUrl := fetchUrlOf cfg filePath
  match env.fetch fetchUrl with
  | .ok body => ([.fetchAttempt fetchUrl], .ok body)
  | .httpError status => ([.fetchAttempt fetchUrl], .error (.error (fetchErrorMsg filePath status)))
  | .reject msg => ([.fetchAttempt fetchUrl], .error (.error msg))

/-- The generic failure message rendered by `PageManager.handleError`. -/
def genericErrorMsg : String :=
  "در بارگذاری محتوا خطایی رخ داد. لطفاً اتصال اینترنت خود را بررسی کنید."

/-- The file-not-found message rendered by `PageManager.handleError`. -/
def notFoundErrorMsg : String :=
  "فایل درخواست شده پیدا نشد. ممکن است لینک شکسته باشد یا فایل حذف شده باشد."

/-- `PageManager.handleError`: pick the user-facing message by whether the
error's message mentions `not found`, and render it as an error box. -/
def handleError (msg : String) : List Ev :=
  let userMessage := if jsIncludes msg "not found" then notFoundErrorMsg else genericErrorMsg
  [.renderError userMessage]

/-- `PageManager._loadNotFoundPage`: fetch and render the configured 404
document through the same parse/render/title/notify pipeline; if that fetch
also fails, fall back to `handleError` on the original error. -/
def loadNotFoundPage (env : Env) (cfg : Config) (originalMsg : String) : List Ev :=
  let notFoundPagePath := env.resolvePath cfg.notFoundPage
  let fr := fetchContent env cfg notFoundPagePath
  match fr.2 with
  | .ok markdown =>
    fr.1 ++ [.renderContent (env.parse markdown), .updateTitle, .notifyPlugins "onPageLoad"] ++
      (if env.hasSidebar then [.setActiveLink none, .closeMobileSidebar] else [])
  | .error _ => fr.1 ++ handleError originalMsg

/-- `PageManager._scrollToAnchor`: request a scroll for the anchor after the
first `#` at index ≥ 1, if any. -/
def scrollEvents (env : Env) (path : String) : List Ev :=
  match jsIndexOfFrom path '#' 1 with
  | some i => [.scrollToAnchor (env.decodeURIComponent (String.mk (path.data.drop (i + 1))))]
  | none => []

/-- The `try` block of `PageManager.loadPage`: render the loading state,
fail closed when the target is remote but remote loading is disabled,
resolve and fetch the content, rewrite it when remote, then parse, render,
update the title, notify plugins, update the sidebar and handle anchors. -/
def loadPageTry (env : Env) (cfg : Config) (filePath currentPath : String) :
    List Ev × Except JsError Unit :=
  let isRemote := jsStartsWith filePath "http"
  if isRemote && !remoteEnabled cfg then
    ([.renderLoading], .error (.error "Remote file loading is disabled, content not found."))
  else
    let resolvedPath := if isRemote then filePath else env.resolvePath filePath
    let fr := fetchContent env cfg resolvedPath
    match fr.2 with
    | .error e => (Ev.renderLoading :: fr.1, .error e)
    | .ok markdown =>
      let markdown := if isRemote then rewriteRemoteContent markdown resolvedPath else markdown
      let html := env.parse markdown
      (Ev.renderLoading :: fr.1 ++
        [.renderContent html, .updateTitle, .notifyPlugins "onPageLoad"] ++
        (if env.hasSidebar then
          [.setActiveLink (some (splitHashHead currentPath)), .closeMobileSidebar]
        else []) ++
        scrollEvents env currentPath, .ok ())

/-- `PageManager.loadPage` with its `catch`: an error whose message mentions
`not found` triggers the 404-document substitution; any other error goes to
`handleError`. -/
def loadPage (env : Env) (cfg : Config) (filePath currentPath : String) : List Ev :=
  let tr := loadPageTry env cfg filePath currentPath
  match tr.2 with
  | .ok _ => tr.1
  | .error (.error msg) =>
    if jsIncludes msg "not found" then tr.1 ++ loadNotFoundPage env cfg msg
    else tr.1 ++ handleError msg

/-! ## Auxiliary list and string lemmas -/

/-- A list is a prefix of itself extended on the right. -/
theorem listIsPrefixOf_append_self :
    ∀ (xs ys : List Char), listIsPrefixOf xs (xs ++ ys) = true := by
  intro xs ys
  induction xs with
  | nil => rfl
  | cons x xs ih => simp [listIsPrefixOf, ih]

/-- Prefixes survive extension of the larger list on the right. -/
theorem listIsPrefixOf_append_right :
    ∀ (pat xs ys : List Char), listIsPrefixOf pat xs = true →
      listIsPrefixOf pat (xs ++ ys) = true := by
  intro pat
  induction pat with
  | nil => intro xs ys _; rfl
  | cons p pat ih =>
    intro xs ys h
    cases xs with
    | nil => simp [listIsPrefixOf] at h
    | cons x xs =>
      simp only [listIsPrefixOf, Bool.and_eq_true, decide_eq_true_eq] at h ⊢
      exact ⟨h.1, ih xs ys h.2⟩

/-- Containment survives extension on the left. -/
theorem listContainsSub_append_left :
    ∀ (xs ys pat : List Char), listContainsSub pat ys = true →
      listContainsSub pat (xs ++ ys) = true := by
  intro xs
  induction xs with
  | nil => intro ys pat h; simpa using h
  | cons x xs ih =>
    intro ys pat h
    simp only [List.cons_append, listContainsSub, Bool.or_eq_true]
    exact Or.inr (ih ys pat h)

/-- Containment survives extension on the right. -/
theorem listContainsSub_append_right :
    ∀ (xs ys pat : List Char), listContainsSub pat xs = true →
      listContainsSub pat (xs ++ ys) = true := by
  intro xs
  induction xs with
  | nil =>
    intro ys pat h
    cases pat with
    | nil =>
      cases ys with
      | nil => simpa using h
      | cons y ys => simp [listContainsSub, listIsPrefixOf]
    | cons p pat => simp [listContainsSub, listIsPrefixOf] at h
  | cons x xs ih =>
    intro ys pat h
    simp only [listContainsSub, Bool.or_eq_true] at h
    simp only [List.cons_append, listContainsSub, Bool.or_eq_true]
    cases h with
    | inl h => exact Or.inl (listIsPrefixOf_append_right pat (x :: xs) ys h)
    | inr h => exact Or.inr (ih ys pat h)

/-- The not-found diagnostic of `fetchContent` mentions `not found` for
every file path and status. -/
theorem fetchErrorMsg_includes_not_found (filePath : String) (status : Nat) :
    jsIncludes (fetchErrorMsg filePath status) "not found" = true := by
  unfold fetchErrorMsg jsIncludes
  rw [String.data_append, String.data_append, String.data_append, String.data_append]
  apply listContainsSub_append_left
  apply listContainsSub_append_left
  apply listContainsSub_append_right
  decide

/-- Proxying is skipped whenever remote loading is disabled. -/
theorem fetchUrlOf_disabled (cfg : Config) (p : String) (h : remoteEnabled cfg = false) :
    fetchUrlOf cfg p = p := by
  unfold fetchUrlOf
  unfold remoteEnabled at h
  cases hr : cfg.remote with
  | none => simp [hr]
  | some rc =>
    rw [hr] at h
    have h2 : rc.enabled = false := h
    cases hp : rc.corsProxyUrl <;> simp [hr, hp, h2]

/-! ## Claim theorems -/

/-- C5: `Router.getFilePath` is the deterministic mapping: `/` always yields
the configured default page; a path that is neither `/` nor
`/remote/`-prefixed yields the path with its leading slash removed and
`.md` appended; a `/remote/`-prefixed path has its remainder Base64-decoded
into a URL, and on decode failure the configured default page is returned
(recovered, not fatal). -/
theorem c5_getFilePath_mapping (r : Router) (p rest url : String) :
    (Router.getFilePath r "/" = r.defaultPage) ∧
    (p ≠ "/" → jsStartsWith p "/remote/" = false →
      Router.getFilePath r p = jsSubstringFrom p 1 ++ ".md") ∧
    (atob rest = some url → Router.getFilePath r ("/remote/" ++ rest) = url) ∧
    (atob rest = none → Router.getFilePath r ("/remote/" ++ rest) = r.defaultPage) := by
  have hdata : ("/remote/" ++ rest).data = "/remote/".data ++ rest.data :=
    String.data_append _ _
  have hne : ("/remote/" ++ rest) ≠ "/" := by
    intro h
    have hlen : ("/remote/" ++ rest).data.length = ("/" : String).data.length :=
      congrArg (fun s => s.data.length) h
    rw [hdata] at hlen
    simp at hlen
  have hsw : jsStartsWith ("/remote/" ++ rest) "/remote/" = true := by
    unfold jsStartsWith
    rw [hdata]
    exact listIsPrefixOf_append_self _ _
  have hsub : jsSubstringFrom ("/remote/" ++ rest) 8 = rest := by
    unfold jsSubstringFrom
    rw [hdata]
    have h8 : (8 : Nat) = ("/remote/".data).length := rfl
    rw [h8, List.drop_left]
  refine ⟨by simp [Router.getFilePath], ?_, ?_, ?_⟩
  · intro hp hpre
    simp [Router.getFilePath, hp, hpre]
  · intro hdec
    simp [Router.getFilePath, hne, hsw, hsub, hdec]
  · intro hdec
    simp [Router.getFilePath, hne, hsw, hsub, hdec]

/-- C5 witness: the mapping evaluated at `/docs`, at a decodable remote
route, and at an undecodable remote route. -/
theorem c5_getFilePath_mapping_witness :
    ("/docs" ≠ "/" ∧ jsStartsWith "/docs" "/remote/" = false ∧
      Router.getFilePath ⟨"README.md"⟩ "/docs" = jsSubstringFrom "/docs" 1 ++ ".md") ∧
    (atob "aHR0cDovL3g=" = some "http://x" ∧
      Router.getFilePath ⟨"README.md"⟩ ("/remote/" ++ "aHR0cDovL3g=") = "http://x") ∧
    (atob "!!!" = none ∧
      Router.getFilePath ⟨"README.md"⟩ ("/remote/" ++ "!!!") = "README.md") :=
  ⟨⟨by decide, by decide,
    (c5_getFilePath_mapping ⟨"README.md"⟩ "/docs" "" "").2.1 (by decide) (by decide)⟩,
   ⟨by decide,
    (c5_getFilePath_mapping ⟨"README.md"⟩ "/" "aHR0cDovL3g=" "http://x").2.2.1 (by decide)⟩,
   ⟨by decide,
    (c5_getFilePath_mapping ⟨"README.md"⟩ "/" "!!!" "").2.2.2 (by decide)⟩⟩

/-- C6: the claimed byte-for-byte round-trip through the pipeline's encoder
(`utf8ToBase64`) and `Router.getFilePath` fails on the code for non-ASCII
URLs: the router decodes with plain `atob` (latin-1) instead of the UTF-8
decoder `base64ToUtf8` that `utils.js` provides as the encoder's inverse and
that `TitleManager` applies to the very same route segment. At the failing
input `https://example.com/é.md` the router returns the mojibake form, while
the intended decoder recovers the URL exactly. -/
theorem c6_remote_roundtrip_code_bug :
    Router.getFilePath ⟨"README.md"⟩
        ("/remote/" ++ utf8ToBase64 "https://example.com/é.md") =
      "https://example.com/Ã©.md" ∧
    "https://example.com/Ã©.md" ≠ "https://example.com/é.md" ∧
    base64ToUtf8 (utf8ToBase64 "https://example.com/é.md") =
      some "https://example.com/é.md" := by
  refine ⟨by decide, by decide, by decide⟩

/-- C9 counterexample: with order `wiki-first`, separator `" | "`, app name
`X` and page title `Y` but `includeWiki` disabled, the formatted title is
`Y`, not `X | Y` — the claim omits the `includeWiki` condition the code
requires. -/
theorem c9_title_formatting_counterexample :
    formatTitle ⟨false, "wiki-first", " | "⟩ "X" "Y" = "Y" ∧
    formatTitle ⟨false, "wiki-first", " | "⟩ "X" "Y" ≠ "X | Y" := by
  refine ⟨by decide, by decide⟩

/-- C9 (amended): when `includeWiki` is enabled, order `wiki-first`,
separator `" | "`, app name `X` and page title `Y` format to exactly
`X | Y`; with order `page-only` the formatted title is exactly `Y`
regardless of `includeWiki`, app name and separator; and every combined
title longer than 80 units is truncated to its first 77 followed by
`...`. -/
theorem c9_title_formatting_amended :
    (formatTitle ⟨true, "wiki-first", " | "⟩ "X" "Y" = "X | Y") ∧
    (∀ (iw : Bool) (appName sep : String),
      formatTitle ⟨iw, "page-only", sep⟩ appName "Y" = "Y") ∧
    (∀ (cfg : TitleConfig) (appName pageTitle : String),
      80 < jsLength (combineTitle cfg appName pageTitle) →
      formatTitle cfg appName pageTitle =
        jsSubstringTo (combineTitle cfg appName pageTitle) 77 ++ "...") := by
  refine ⟨by decide, ?_, ?_⟩
  · intro iw appName sep
    simp [formatTitle, combineTitle, jsLength]
  · intro cfg appName pageTitle h
    unfold formatTitle
    rw [if_pos h]

/-- C9 witness: the truncation branch applied to a concrete 100-character
combined title. -/
theorem c9_title_formatting_amended_witness :
    80 < jsLength (combineTitle ⟨false, "page-first", " | "⟩ ""
        "aaaaaaaaaaaaaaaaaaaaaaaaaaaaaaaaaaaaaaaaaaaaaaaaaaaaaaaaaaaaaaaaaaaaaaaaaaaaaaaaaaaaaaaaaaaaaaaaaa") ∧
    formatTitle ⟨false, "page-first", " | "⟩ ""
        "aaaaaaaaaaaaaaaaaaaaaaaaaaaaaaaaaaaaaaaaaaaaaaaaaaaaaaaaaaaaaaaaaaaaaaaaaaaaaaaaaaaaaaaaaaaaaaaaaa" =
      jsSubstringTo (combineTitle ⟨false, "page-first", " | "⟩ ""
        "aaaaaaaaaaaaaaaaaaaaaaaaaaaaaaaaaaaaaaaaaaaaaaaaaaaaaaaaaaaaaaaaaaaaaaaaaaaaaaaaaaaaaaaaaaaaaaaaaa") 77 ++ "..." :=
  ⟨by decide,
   c9_title_formatting_amended.2.2 ⟨false, "page-first", " | "⟩ ""
     "aaaaaaaaaaaaaaaaaaaaaaaaaaaaaaaaaaaaaaaaaaaaaaaaaaaaaaaaaaaaaaaaaaaaaaaaaaaaaaaaaaaaaaaaaaaaaaaaaa"
     (by decide)⟩

/-- C10: calling `loadPlugins` with a missing argument (`undefined`, which
the `= []` default replaces), with `null`, or with any other non-array value
returns normally (`.ok`) and leaves the active plugin list unchanged. -/
theorem c10_loadPlugins_non_array (st : PluginManagerState) (truthy : Bool) :
    loadPlugins st .undefined = .ok st ∧
    loadPlugins st .null = .ok st ∧
    loadPlugins st (.other truthy) = .ok st :=
  ⟨rfl, rfl, rfl⟩

/-- A per-plugin task yields an instance exactly for the plugin itself, when
its import resolves, a default-export class exists, and `onInit` (if any)
does not throw. -/
theorem pluginTask_eq_some (a b : PluginBehavior) :
    pluginTask a = some b ↔
      b = a ∧ a.importOk = true ∧ a.hasDefault = true ∧ a.onInit ≠ some true := by
  unfold pluginTask pluginBody
  by_cases h1 : a.importOk
  · by_cases h2 : a.hasDefault
    · by_cases h3 : a.onInit = some true
      · simp [h1, h2, h3]
      · simp [h1, h2, h3]
        exact eq_comm
    · simp [h1, h2]
  · simp [h1]

/-- C1: for every configured plugin list, a listed plugin whose `onInit`
throws is not added to the active plugin list, every other listed plugin
that imports, exposes a default-export class and whose `onInit` does not
throw is still loaded, instantiated, initialized and registered, and
`loadPlugins` returns normally (no exception reaches its caller). -/
theorem c1_onInit_fault_isolation (st : PluginManagerState) (ps : List PluginBehavior)
    (p : PluginBehavior) (hmem : p ∈ ps) (himp : p.importOk = true)
    (hdef : p.hasDefault = true) (hthrow : p.onInit = some true) :
    loadPlugins st (.arr ps) = .ok ⟨st.plugins ++ ps.filterMap pluginTask⟩ ∧
    p ∉ ps.filterMap pluginTask ∧
    (∀ q ∈ ps, q.importOk = true → q.hasDefault = true → q.onInit ≠ some true →
      q ∈ ps.filterMap pluginTask) := by
  refine ⟨rfl, ?_, ?_⟩
  · intro hc
    rw [List.mem_filterMap] at hc
    obtain ⟨a, _, hta⟩ := hc
    obtain ⟨rfl, _, _, hno⟩ := (pluginTask_eq_some a p).mp hta
    exact hno hthrow
  · intro q hq h1 h2 h3
    exact List.mem_filterMap.mpr ⟨q, hq, (pluginTask_eq_some q q).mpr ⟨rfl, h1, h2, h3⟩⟩

/-- C1 witness: a batch of three plugins in which the middle one's `onInit`
throws; the other two are registered and the thrower is not. -/
theorem c1_onInit_fault_isolation_witness :
    ((⟨2, true, true, some true⟩ : PluginBehavior) ∈
        ([⟨1, true, true, some false⟩, ⟨2, true, true, some true⟩,
          ⟨3, true, true, none⟩] : List PluginBehavior)) ∧
    (loadPlugins ⟨[]⟩ (.arr [⟨1, true, true, some false⟩, ⟨2, true, true, some true⟩,
          ⟨3, true, true, none⟩]) =
        .ok ⟨[] ++ ([⟨1, true, true, some false⟩, ⟨2, true, true, some true⟩,
          ⟨3, true, true, none⟩] : List PluginBehavior).filterMap pluginTask⟩ ∧
      (⟨2, true, true, some true⟩ : PluginBehavior) ∉
        ([⟨1, true, true, some false⟩, ⟨2, true, true, some true⟩,
          ⟨3, true, true, none⟩] : List PluginBehavior).filterMap pluginTask ∧
      (∀ q ∈ ([⟨1, true, true, some false⟩, ⟨2, true, true, some true⟩,
          ⟨3, true, true, none⟩] : List PluginBehavior),
        q.importOk = true → q.hasDefault = true → q.onInit ≠ some true →
          q ∈ ([⟨1, true, true, some false⟩, ⟨2, true, true, some true⟩,
            ⟨3, true, true, none⟩] : List PluginBehavior).filterMap pluginTask)) :=
  ⟨by decide,
   c1_onInit_fault_isolation ⟨[]⟩ _ ⟨2, true, true, some true⟩ (by decide) rfl rfl rfl⟩

/-- C2: `notify` delivers the event, with its data, to exactly the plugins
of the active list that expose a matching method, in list (registration)
order; a handler that throws is caught, so the invocation trace — and in
particular delivery to every subsequent plugin — is independent of which
handlers throw. -/
theorem c2_notify_order_and_isolation {α : Type} (ps : List NotifyPlugin) (ev : String)
    (d : α) :
    notify ps ev d = (ps.filter (fun p => p.handles ev)).map (fun p => (p.id, d)) := by
  induction ps with
  | nil => rfl
  | cons p rest ih =>
    by_cases hp : p.handles ev
    · have hstep : notify (p :: rest) ev d = (p.id, d) :: notify rest ev d := by
        simp only [notify, invokeHandler, hp, if_true]
        cases hth : p.throwsOn ev <;> simp
      rw [hstep, ih]
      simp [List.filter_cons, hp]
    · have hstep : notify (p :: rest) ev d = notify rest ev d := by
        simp [notify, hp]
      rw [hstep, ih]
      simp [List.filter_cons, hp]

/-- Shape of `_loadNotFoundPage` when the 404 document's fetch succeeds. -/
theorem loadNotFoundPage_ok (env : Env) (cfg : Config) (msg body : String)
    (hok : env.fetch (fetchUrlOf cfg (env.resolvePath cfg.notFoundPage)) = .ok body) :
    loadNotFoundPage env cfg msg =
      [Ev.fetchAttempt (fetchUrlOf cfg (env.resolvePath cfg.notFoundPage)),
       Ev.renderContent (env.parse body), Ev.updateTitle, Ev.notifyPlugins "onPageLoad"] ++
      (if env.hasSidebar then [Ev.setActiveLink none, Ev.closeMobileSidebar] else []) := by
  simp [loadNotFoundPage, fetchContent, hok]

/-- Shape of `_loadNotFoundPage` when the 404 document's fetch returns a
non-ok response: the original error is handed to `handleError`. -/
theorem loadNotFoundPage_httpError (env : Env) (cfg : Config) (msg : String) (status : Nat)
    (hf : env.fetch (fetchUrlOf cfg (env.resolvePath cfg.notFoundPage)) = .httpError status) :
    loadNotFoundPage env cfg msg =
      [Ev.fetchAttempt (fetchUrlOf cfg (env.resolvePath cfg.notFoundPage))] ++
        handleError msg := by
  simp [loadNotFoundPage, fetchContent, hf]

/-- Shape of `_loadNotFoundPage` when the 404 document's fetch rejects: the
original error is handed to `handleError`. -/
theorem loadNotFoundPage_reject (env : Env) (cfg : Config) (msg m : String)
    (hf : env.fetch (fetchUrlOf cfg (env.resolvePath cfg.notFoundPage)) = .reject m) :
    loadNotFoundPage env cfg msg =
      [Ev.fetchAttempt (fetchUrlOf cfg (env.resolvePath cfg.notFoundPage))] ++
        handleError msg := by
  simp [loadNotFoundPage, fetchContent, hf]

/-- Every fetch attempt of `_loadNotFoundPage` targets the resolved 404
document. -/
theorem loadNotFoundPage_fetchAttempts (env : Env) (cfg : Config) (msg u : String)
    (hmem : Ev.fetchAttempt u ∈ loadNotFoundPage env cfg msg) :
    u = fetchUrlOf cfg (env.resolvePath cfg.notFoundPage) := by
  cases hf : env.fetch (fetchUrlOf cfg (env.resolvePath cfg.notFoundPage)) with
  | ok body =>
    rw [loadNotFoundPage_ok env cfg msg body hf] at hmem
    cases hs : env.hasSidebar <;> simp [hs] at hmem <;> exact hmem
  | httpError status =>
    rw [loadNotFoundPage_httpError env cfg msg status hf] at hmem
    simp [handleError] at hmem
    exact hmem
  | reject m =>
    rw [loadNotFoundPage_reject env cfg msg m hf] at hmem
    simp [handleError] at hmem
    exact hmem

/-- `_loadNotFoundPage` reads the original error only through the `not found`
test of `handleError`: any two triggering messages that both mention
`not found` produce identical behaviour. -/
theorem loadNotFoundPage_msg_independent (env : Env) (cfg : Config) (m1 m2 : String)
    (h1 : jsIncludes m1 "not found" = true) (h2 : jsIncludes m2 "not found" = true) :
    loadNotFoundPage env cfg m1 = loadNotFoundPage env cfg m2 := by
  cases hf : env.fetch (fetchUrlOf cfg (env.resolvePath cfg.notFoundPage)) with
  | ok body => rw [loadNotFoundPage_ok env cfg m1 body hf, loadNotFoundPage_ok env cfg m2 body hf]
  | httpError status =>
    rw [loadNotFoundPage_httpError env cfg m1 status hf,
      loadNotFoundPage_httpError env cfg m2 status hf]
    simp [handleError, h1, h2]
  | reject m =>
    rw [loadNotFoundPage_reject env cfg m1 m hf, loadNotFoundPage_reject env cfg m2 m hf]
    simp [handleError, h1, h2]

/-- The resolved path `loadPage` fetches: the file path itself for a remote
target, the app-resolved path otherwise. -/
def resolvedPathOf (env : Env) (filePath : String) : String :=
  if jsStartsWith filePath "http" then filePath else env.resolvePath filePath

/-- Shape of `loadPage`'s `try` block when the content fetch returns a
non-ok response (and a remote target is only attempted with remote loading
enabled). -/
theorem loadPageTry_httpError (env : Env) (cfg : Config) (filePath currentPath : String)
    (status : Nat)
    (hgate : jsStartsWith filePath "http" = true → remoteEnabled cfg = true)
    (hfetch : env.fetch (fetchUrlOf cfg (resolvedPathOf env filePath)) = .httpError status) :
    loadPageTry env cfg filePath currentPath =
      ([Ev.renderLoading, Ev.fetchAttempt (fetchUrlOf cfg (resolvedPathOf env filePath))],
        .error (.error (fetchErrorMsg (resolvedPathOf env filePath) status))) := by
  unfold resolvedPathOf at hfetch
  cases hsw : jsStartsWith filePath "http" with
  | false =>
    rw [hsw] at hfetch
    simp only [Bool.false_eq_true, if_false] at hfetch
    simp [loadPageTry, fetchContent, hsw, hfetch, resolvedPathOf]
  | true =>
    rw [hsw] at hfetch
    simp only [if_true] at hfetch
    have hen := hgate hsw
    simp [loadPageTry, fetchContent, hsw, hen, hfetch, resolvedPathOf]

/-- `loadPage` on a non-ok content response: the not-found classification
routes into the 404-document substitution. -/
theorem loadPage_httpError (env : Env) (cfg : Config) (filePath currentPath : String)
    (status : Nat)
    (hgate : jsStartsWith filePath "http" = true → remoteEnabled cfg = true)
    (hfetch : env.fetch (fetchUrlOf cfg (resolvedPathOf env filePath)) = .httpError status) :
    loadPage env cfg filePath currentPath =
      [Ev.renderLoading, Ev.fetchAttempt (fetchUrlOf cfg (resolvedPathOf env filePath))] ++
        loadNotFoundPage env cfg (fetchErrorMsg (resolvedPathOf env filePath) status) := by
  unfold loadPage
  rw [loadPageTry_httpError env cfg filePath currentPath status hgate hfetch]
  simp [fetchErrorMsg_includes_not_found]

/-- C3: when the content fetch returns a not-found-classified error (any
non-ok HTTP response, e.g. 404), the configured not-found document is
fetched and rendered through the same render/title/plugin-notify pipeline;
and when the not-found document's own fetch fails too, an error message is
rendered instead (here the `not found` wording, since the original error is
not-found-classified). -/
theorem c3_not_found_fallback (env : Env) (cfg : Config) (filePath currentPath : String)
    (status : Nat)
    (hgate : jsStartsWith filePath "http" = true → remoteEnabled cfg = true)
    (hfetch : env.fetch (fetchUrlOf cfg (resolvedPathOf env filePath)) = .httpError status) :
    (∀ body, env.fetch (fetchUrlOf cfg (env.resolvePath cfg.notFoundPage)) = .ok body →
      loadPage env cfg filePath currentPath =
        [Ev.renderLoading, Ev.fetchAttempt (fetchUrlOf cfg (resolvedPathOf env filePath)),
         Ev.fetchAttempt (fetchUrlOf cfg (env.resolvePath cfg.notFoundPage)),
         Ev.renderContent (env.parse body), Ev.updateTitle, Ev.notifyPlugins "onPageLoad"] ++
        (if env.hasSidebar then [Ev.setActiveLink none, Ev.closeMobileSidebar] else [])) ∧
    (∀ status2, env.fetch (fetchUrlOf cfg (env.resolvePath cfg.notFoundPage)) =
        .httpError status2 →
      loadPage env cfg filePath currentPath =
        [Ev.renderLoading, Ev.fetchAttempt (fetchUrlOf cfg (resolvedPathOf env filePath)),
         Ev.fetchAttempt (fetchUrlOf cfg (env.resolvePath cfg.notFoundPage)),
         Ev.renderError notFoundErrorMsg]) ∧
    (∀ m, env.fetch (fetchUrlOf cfg (env.resolvePath cfg.notFoundPage)) = .reject m →
      loadPage env cfg filePath currentPath =
        [Ev.renderLoading, Ev.fetchAttempt (fetchUrlOf cfg (resolvedPathOf env filePath)),
         Ev.fetchAttempt (fetchUrlOf cfg (env.resolvePath cfg.notFoundPage)),
         Ev.renderError notFoundErrorMsg]) := by
  have hmain := loadPage_httpError env cfg filePath currentPath status hgate hfetch
  refine ⟨?_, ?_, ?_⟩
  · intro body hok
    rw [hmain, loadNotFoundPage_ok env cfg _ body hok]
    simp
  · intro status2 hnf
    rw [hmain, loadNotFoundPage_httpError env cfg _ status2 hnf]
    simp [handleError, fetchErrorMsg_includes_not_found]
  · intro m hnf
    rw [hmain, loadNotFoundPage_reject env cfg _ m hnf]
    simp [handleError, fetchErrorMsg_includes_not_found]

/-- C3 witness: a local page whose fetch returns 404 renders the 404
document through the full pipeline, and with the 404 document unreachable
an error message is rendered instead. -/
theorem c3_not_found_fallback_witness :
    ((fun u => if u = "config/404.md" then FetchOutcome.ok "# 404" else .httpError 404)
        (fetchUrlOf { remote := none, notFoundPage := "config/404.md" }
          (resolvedPathOf
            { fetch := fun u => if u = "config/404.md" then .ok "# 404" else .httpError 404,
              parse := fun s => s, resolvePath := fun s => s, hasSidebar := true,
              decodeURIComponent := fun s => s } "guide.md")) = .httpError 404) ∧
    (loadPage
        { fetch := fun u => if u = "config/404.md" then .ok "# 404" else .httpError 404,
          parse := fun s => s, resolvePath := fun s => s, hasSidebar := true,
          decodeURIComponent := fun s => s }
        { remote := none, notFoundPage := "config/404.md" } "guide.md" "/guide" =
      [Ev.renderLoading, Ev.fetchAttempt "guide.md", Ev.fetchAttempt "config/404.md",
       Ev.renderContent "# 404", Ev.updateTitle, Ev.notifyPlugins "onPageLoad",
       Ev.setActiveLink none, Ev.closeMobileSidebar]) ∧
    (loadPage
        { fetch := fun _ => .httpError 404, parse := fun s => s, resolvePath := fun s => s,
          hasSidebar := false, decodeURIComponent := fun s => s }
        { remote := none, notFoundPage := "config/404.md" } "guide.md" "/guide" =
      [Ev.renderLoading, Ev.fetchAttempt "guide.md", Ev.fetchAttempt "config/404.md",
       Ev.renderError notFoundErrorMsg]) := by
  refine ⟨by decide, ?_, ?_⟩
  · have h := (c3_not_found_fallback
      { fetch := fun u => if u = "config/404.md" then .ok "# 404" else .httpError 404,
        parse := fun s => s, resolvePath := fun s => s, hasSidebar := true,
        decodeURIComponent := fun s => s }
      { remote := none, notFoundPage := "config/404.md" } "guide.md" "/guide" 404
      (by intro h; cases h) (by decide)).1 "# 404" (by decide)
    simpa using h
  · have h := (c3_not_found_fallback
      { fetch := fun _ => .httpError 404, parse := fun s => s, resolvePath := fun s => s,
        hasSidebar := false, decodeURIComponent := fun s => s }
      { remote := none, notFoundPage := "config/404.md" } "guide.md" "/guide" 404
      (by intro h; cases h) (by decide)).2.1 404 (by decide)
    simpa using h

/-- The message thrown by `loadPage`'s security gate. -/
def remoteDisabledMsg : String := "Remote file loading is disabled, content not found."

/-- C4: for a remote target (`http...`) with remote loading disabled in
configuration, `loadPage` throws before any fetch of that URL, and the
error's `not found` wording routes the navigation into the not-found
fallback: the only fetch the whole run may attempt is the configured
not-found document, never the remote URL. -/
theorem c4_remote_disabled_fail_closed (env : Env) (cfg : Config)
    (filePath currentPath : String)
    (hremote : jsStartsWith filePath "http" = true) (hdis : remoteEnabled cfg = false) :
    loadPage env cfg filePath currentPath =
      Ev.renderLoading :: loadNotFoundPage env cfg remoteDisabledMsg ∧
    (∀ u, Ev.fetchAttempt u ∈ loadPage env cfg filePath currentPath →
      u = env.resolvePath cfg.notFoundPage) ∧
    (jsStartsWith (env.resolvePath cfg.notFoundPage) "http" = false →
      Ev.fetchAttempt filePath ∉ loadPage env cfg filePath currentPath) := by
  have hmain : loadPage env cfg filePath currentPath =
      Ev.renderLoading :: loadNotFoundPage env cfg remoteDisabledMsg := by
    have hinc : jsIncludes "Remote file loading is disabled, content not found."
        "not found" = true := by decide
    simp [loadPage, loadPageTry, hremote, hdis, remoteDisabledMsg, hinc]
  have hatt : ∀ u, Ev.fetchAttempt u ∈ loadPage env cfg filePath currentPath →
      u = env.resolvePath cfg.notFoundPage := by
    intro u hu
    rw [hmain] at hu
    rcases List.mem_cons.mp hu with h | h
    · cases h
    · have := loadNotFoundPage_fetchAttempts env cfg remoteDisabledMsg u h
      rwa [fetchUrlOf_disabled cfg _ hdis] at this
  refine ⟨hmain, hatt, ?_⟩
  intro hlocal hmem
  have := hatt filePath hmem
  rw [this] at hremote
  rw [hlocal] at hremote
  cases hremote

/-- C4 witness: a remote URL with remote loading absent from configuration
is never fetched; the run renders the not-found document instead. -/
theorem c4_remote_disabled_fail_closed_witness :
    (jsStartsWith "http://evil.example/x.md" "http" = true ∧
      remoteEnabled { remote := none, notFoundPage := "config/404.md" } = false) ∧
    (loadPage
        { fetch := fun u => if u = "config/404.md" then .ok "# 404" else .httpError 404,
          parse := fun s => s, resolvePath := fun s => s, hasSidebar := false,
          decodeURIComponent := fun s => s }
        { remote := none, notFoundPage := "config/404.md" }
        "http://evil.example/x.md" "/remote/abc" =
      Ev.renderLoading :: loadNotFoundPage
        { fetch := fun u => if u = "config/404.md" then .ok "# 404" else .httpError 404,
          parse := fun s => s, resolvePath := fun s => s, hasSidebar := false,
          decodeURIComponent := fun s => s }
        { remote := none, notFoundPage := "config/404.md" } remoteDisabledMsg) ∧
    Ev.fetchAttempt "http://evil.example/x.md" ∉
      loadPage
        { fetch := fun u => if u = "config/404.md" then .ok "# 404" else .httpError 404,
          parse := fun s => s, resolvePath := fun s => s, hasSidebar := false,
          decodeURIComponent := fun s => s }
        { remote := none, notFoundPage := "config/404.md" }
        "http://evil.example/x.md" "/remote/abc" :=
  ⟨⟨by decide, by decide⟩,
   (c4_remote_disabled_fail_closed
      { fetch := fun u => if u = "config/404.md" then .ok "# 404" else .httpError 404,
        parse := fun s => s, resolvePath := fun s => s, hasSidebar := false,
        decodeURIComponent := fun s => s }
      { remote := none, notFoundPage := "config/404.md" }
      "http://evil.example/x.md" "/remote/abc" (by decide) (by decide)).1,
   (c4_remote_disabled_fail_closed
      { fetch := fun u => if u = "config/404.md" then .ok "# 404" else .httpError 404,
        parse := fun s => s, resolvePath := fun s => s, hasSidebar := false,
        decodeURIComponent := fun s => s }
      { remote := none, notFoundPage := "config/404.md" }
      "http://evil.example/x.md" "/remote/abc" (by decide) (by decide)).2.2 (by decide)⟩

/-- C8 counterexample: a transport-level fetch failure (promise rejection,
here with the browsers' usual `Failed to fetch` message) is not classified
as content-not-found: `loadPage` renders the generic error branch directly
and never attempts the configured not-found document, contradicting the
claim that any transport failure routes into the not-found substitution. -/
theorem c8_transport_counterexample :
    loadPage
        { fetch := fun _ => .reject "Failed to fetch", parse := fun s => s,
          resolvePath := fun s => s, hasSidebar := true, decodeURIComponent := fun s => s }
        { remote := none, notFoundPage := "config/404.md" } "guide.md" "/guide" =
      [Ev.renderLoading, Ev.fetchAttempt "guide.md", Ev.renderError genericErrorMsg] ∧
    Ev.fetchAttempt "config/404.md" ∉
      loadPage
        { fetch := fun _ => .reject "Failed to fetch", parse := fun s => s,
          resolvePath := fun s => s, hasSidebar := true, decodeURIComponent := fun s => s }
        { remote := none, notFoundPage := "config/404.md" } "guide.md" "/guide" := by
  refine ⟨by decide, by decide⟩

/-- C8 (amended): every non-2xx HTTP response is classified as
content-not-found — `fetchContent` throws a message that always mentions
`not found`, routing `loadPage` into the not-found-document substitution —
and the HTTP status survives only inside that diagnostic message, which is
never branched on further (any two triggering messages mentioning
`not found` behave identically). A transport-level failure, by contrast,
propagates the rejection's own message; when that message does not mention
`not found` (the usual case), `loadPage` renders the generic error branch
instead of the not-found substitution. -/
theorem c8_fetch_classification_amended :
    (∀ (env : Env) (cfg : Config) (p : String) (status : Nat),
      env.fetch (fetchUrlOf cfg p) = .httpError status →
      fetchContent env cfg p =
        ([Ev.fetchAttempt (fetchUrlOf cfg p)],
          .error (.error (fetchErrorMsg p status))) ∧
      jsIncludes (fetchErrorMsg p status) "not found" = true) ∧
    (∀ (env : Env) (cfg : Config) (filePath currentPath : String) (status : Nat),
      (jsStartsWith filePath "http" = true → remoteEnabled cfg = true) →
      env.fetch (fetchUrlOf cfg (resolvedPathOf env filePath)) = .httpError status →
      loadPage env cfg filePath currentPath =
        [Ev.renderLoading, Ev.fetchAttempt (fetchUrlOf cfg (resolvedPathOf env filePath))] ++
          loadNotFoundPage env cfg (fetchErrorMsg (resolvedPathOf env filePath) status)) ∧
    (∀ (env : Env) (cfg : Config) (m1 m2 : String),
      jsIncludes m1 "not found" = true → jsIncludes m2 "not found" = true →
      loadNotFoundPage env cfg m1 = loadNotFoundPage env cfg m2) ∧
    (∀ (env : Env) (cfg : Config) (filePath currentPath m : String),
      (jsStartsWith filePath "http" = true → remoteEnabled cfg = true) →
      env.fetch (fetchUrlOf cfg (resolvedPathOf env filePath)) = .reject m →
      jsIncludes m "not found" = false →
      loadPage env cfg filePath currentPath =
        [Ev.renderLoading, Ev.fetchAttempt (fetchUrlOf cfg (resolvedPathOf env filePath)),
         Ev.renderError genericErrorMsg]) := by
  refine ⟨?_, ?_, loadNotFoundPage_msg_independent, ?_⟩
  · intro env cfg p status hf
    refine ⟨?_, fetchErrorMsg_includes_not_found p status⟩
    simp [fetchContent, hf]
  · intro env cfg filePath currentPath status hgate hfetch
    exact loadPage_httpError env cfg filePath currentPath status hgate hfetch
  · intro env cfg filePath currentPath m hgate hfetch hninc
    have htry : loadPageTry env cfg filePath currentPath =
        ([Ev.renderLoading, Ev.fetchAttempt (fetchUrlOf cfg (resolvedPathOf env filePath))],
          .error (.error m)) := by
      unfold resolvedPathOf at hfetch
      cases hsw : jsStartsWith filePath "http" with
      | false =>
        rw [hsw] at hfetch
        simp only [Bool.false_eq_true, if_false] at hfetch
        simp [loadPageTry, fetchContent, hsw, hfetch, resolvedPathOf]
      | true =>
        rw [hsw] at hfetch
        simp only [if_true] at hfetch
        have hen := hgate hsw
        simp [loadPageTry, fetchContent, hsw, hen, hfetch, resolvedPathOf]
    simp [loadPage, htry, hninc, handleError]

/-- C8 amended witness: the classification applied to a concrete 500
response, and a concrete transport failure rendering the generic branch. -/
theorem c8_fetch_classification_amended_witness :
    ((fun (_ : String) => FetchOutcome.httpError 500) (fetchUrlOf
        { remote := none, notFoundPage := "config/404.md" } "a.md") = .httpError 500 ∧
      fetchContent
        { fetch := fun _ => .httpError 500, parse := fun s => s, resolvePath := fun s => s,
          hasSidebar := false, decodeURIComponent := fun s => s }
        { remote := none, notFoundPage := "config/404.md" } "a.md" =
        ([Ev.fetchAttempt (fetchUrlOf { remote := none, notFoundPage := "config/404.md" }
            "a.md")],
          .error (.error (fetchErrorMsg "a.md" 500))) ∧
      jsIncludes (fetchErrorMsg "a.md" 500) "not found" = true) ∧
    (jsIncludes "Failed to fetch" "not found" = false ∧
      loadPage
        { fetch := fun _ => .reject "Failed to fetch", parse := fun s => s,
          resolvePath := fun s => s, hasSidebar := false, decodeURIComponent := fun s => s }
        { remote := none, notFoundPage := "config/404.md" } "a.md" "/a" =
        [Ev.renderLoading,
         Ev.fetchAttempt (fetchUrlOf { remote := none, notFoundPage := "config/404.md" }
           (resolvedPathOf
             { fetch := fun _ => .reject "Failed to fetch", parse := fun s => s,
               resolvePath := fun s => s, hasSidebar := false,
               decodeURIComponent := fun s => s } "a.md")),
         Ev.renderError genericErrorMsg]) :=
  ⟨⟨by decide,
    (c8_fetch_classification_amended.1
      { fetch := fun _ => .httpError 500, parse := fun s => s, resolvePath := fun s => s,
        hasSidebar := false, decodeURIComponent := fun s => s }
      { remote := none, notFoundPage := "config/404.md" } "a.md" 500 (by decide)).1,
    (c8_fetch_classification_amended.1
      { fetch := fun _ => .httpError 500, parse := fun s => s, resolvePath := fun s => s,
        hasSidebar := false, decodeURIComponent := fun s => s }
      { remote := none, notFoundPage := "config/404.md" } "a.md" 500 (by decide)).2⟩,
   ⟨by decide,
    c8_fetch_classification_amended.2.2.2
      { fetch := fun _ => .reject "Failed to fetch", parse := fun s => s,
        resolvePath := fun s => s, hasSidebar := false, decodeURIComponent := fun s => s }
      { remote := none, notFoundPage := "config/404.md" } "a.md" "/a" "Failed to fetch"
      (by intro h; cases h) (by decide) (by decide)⟩⟩

/-! ## Lemmas about the rewriter scanner -/

/-- Characters the regex engine accepts inside the lazy label group here:
not the closing bracket and not a line terminator. -/
def labelCharOk (c : Char) : Bool := !(c = ']') && !(isLineTerm c)

/-- Characters making the URL capture unambiguous: no whitespace and not the
closing parenthesis. -/
def urlCharOk (c : Char) : Bool := !(isJsWs c) && !(c = ')')

/-- Regex line terminators are whitespace. -/
theorem isLineTerm_isJsWs (c : Char) (h : isLineTerm c = true) : isJsWs c = true := by
  simp only [isLineTerm, Bool.or_eq_true, decide_eq_true_eq] at h
  rcases h with ((h | h) | h) | h
  · subst h
    decide
  · subst h
    decide
  · simp [isJsWs, h]
  · simp [isJsWs, h]

/-- Scanner equation: no match at the head copies one character. -/
theorem rewriteScan_none (base : String) (c : Char) (cs : List Char)
    (hm : matchLink (c :: cs) = none) :
    rewriteScan base (c :: cs) = c :: rewriteScan base cs := by
  rw [rewriteScan.eq_def]
  dsimp only
  split
  · rename_i i l u r hsome
    rw [hm] at hsome
    cases hsome
  · rfl

/-- Scanner equation: a match at the head is replaced and scanning resumes
after it. -/
theorem rewriteScan_some (base : String) (c : Char) (cs : List Char) (i : Bool)
    (l u r : List Char) (hm : matchLink (c :: cs) = some (i, l, u, r)) :
    rewriteScan base (c :: cs) =
      rewriteMatch base i l u ((c :: cs).take ((c :: cs).length - r.length)) ++
        rewriteScan base r := by
  rw [rewriteScan.eq_def]
  dsimp only
  split
  · rename_i i2 l2 u2 r2 hsome
    rw [hm] at hsome
    injection hsome with h1
    injection h1 with hi h2
    injection h2 with hl h3
    injection h3 with hu hr
    subst hi
    subst hl
    subst hu
    subst hr
    rfl
  · rename_i hnone
    rw [hm] at hnone
    cases hnone

/-- `lazyUrl` captures exactly a whitespace-free, parenthesis-free reference
up to the closing parenthesis. -/
theorem lazyUrl_clean :
    ∀ (u r : List Char), u.all urlCharOk = true → lazyUrl (u ++ ')' :: r) = some (u, r) := by
  intro u
  induction u with
  | nil => intro r _; simp [lazyUrl, tryGapParen]
  | cons c u ih =>
    intro r hall
    simp only [List.all_cons, Bool.and_eq_true] at hall
    obtain ⟨hc, hu⟩ := hall
    have hws : isJsWs c = false := by
      cases hcc : isJsWs c
      · rfl
      · simp [urlCharOk, hcc] at hc
    have hnp : ¬(c = ')') := by
      intro hcc
      simp [urlCharOk, hcc] at hc
    have hnl : isLineTerm c = false := by
      cases hcc : isLineTerm c
      · rfl
      · rw [isLineTerm_isJsWs c hcc] at hws
        cases hws
    have htg : tryGapParen (c :: (u ++ ')' :: r)) = none := by
      simp [tryGapParen, hnp, hws]
    rw [List.cons_append]
    simp [lazyUrl, htg, hnl, ih r hu]

/-- Scanning the empty remainder produces nothing. -/
theorem rewriteScan_nil (base : String) : rewriteScan base [] = [] := by
  rw [rewriteScan.eq_def]

/-- `matchParen` succeeds on a clean parenthesised reference passing the
lookahead. -/
theorem matchParen_clean (u r : List Char) (hall : u.all urlCharOk = true)
    (hla : lookaheadOk (u ++ ')' :: r) = true) :
    matchParen ('(' :: (u ++ ')' :: r)) = some (u, r) := by
  have htw : (u ++ ')' :: r).takeWhile isJsWs = [] := by
    cases u with
    | nil =>
      have : isJsWs ')' = false := by decide
      simp [List.takeWhile_cons, this]
    | cons c u2 =>
      have hws : isJsWs c = false := by
        cases hcc : isJsWs c
        · rfl
        · simp only [List.all_cons, Bool.and_eq_true] at hall
          simp [urlCharOk, hcc] at hall
      simp [List.takeWhile_cons, hws]
  have hdw : (u ++ ')' :: r).dropWhile isJsWs = u ++ ')' :: r := by
    cases hu : u ++ ')' :: r with
    | nil => rfl
    | cons c cs =>
      rw [hu] at htw
      simp only [List.takeWhile_cons] at htw
      split at htw
      · cases htw
      · rename_i hws
        simp only [Bool.not_eq_true] at hws
        simp [List.dropWhile_cons, hws]
  simp [matchParen, htw, hdw, giveBack, hla, lazyUrl_clean u r hall]

/-- `lazyBracket` captures a clean label followed by a clean parenthesised
reference. -/
theorem lazyBracket_clean :
    ∀ (l u r : List Char), l.all labelCharOk = true → u.all urlCharOk = true →
      lookaheadOk (u ++ ')' :: r) = true →
      lazyBracket (l ++ ']' :: '(' :: (u ++ ')' :: r)) = some (l, u, r) := by
  intro l
  induction l with
  | nil =>
    intro u r _ hu hla
    simp [lazyBracket, matchParen_clean u r hu hla]
  | cons c l2 ih =>
    intro u r hl hu hla
    simp only [List.all_cons, Bool.and_eq_true] at hl
    obtain ⟨hc, hl2⟩ := hl
    have hnb : ¬(c = ']') := by
      intro hcc
      simp [labelCharOk, hcc] at hc
    have hnl : isLineTerm c = false := by
      cases hcc : isLineTerm c
      · rfl
      · simp [labelCharOk, hcc] at hc
    rw [List.cons_append]
    simp [lazyBracket, hnb, hnl, ih u r hl2 hu hla]

/-- `matchLink` on a clean markdown link. -/
theorem matchLink_clean_link (l u r : List Char) (hl : l.all labelCharOk = true)
    (hu : u.all urlCharOk = true) (hla : lookaheadOk (u ++ ')' :: r) = true) :
    matchLink ('[' :: (l ++ ']' :: '(' :: (u ++ ')' :: r))) = some (false, l, u, r) := by
  simp [matchLink, lazyBracket_clean l u r hl hu hla]

/-- `matchLink` on a clean markdown image. -/
theorem matchLink_clean_image (l u r : List Char) (hl : l.all labelCharOk = true)
    (hu : u.all urlCharOk = true) (hla : lookaheadOk (u ++ ')' :: r) = true) :
    matchLink ('!' :: '[' :: (l ++ ']' :: '(' :: (u ++ ')' :: r))) =
      some (true, l, u, r) := by
  simp [matchLink, lazyBracket_clean l u r hl hu hla]

/-- Without any closing bracket the lazy label can never close. -/
theorem lazyBracket_none_no_rbracket :
    ∀ (cs : List Char), cs.all (fun c => !(c = ']')) = true → lazyBracket cs = none := by
  intro cs
  induction cs with
  | nil => intro _; rfl
  | cons c cs ih =>
    intro h
    simp only [List.all_cons, Bool.and_eq_true] at h
    obtain ⟨hc, hcs⟩ := h
    have hcne : ¬(c = ']') := by simpa using hc
    cases hlt : isLineTerm c <;> simp [lazyBracket, hcne, hlt, ih hcs]

/-- `matchParen` fails when the lookahead rejects the reference (and no
leading whitespace offers a backtracking position). -/
theorem matchParen_fail (u : List Char) (htw : (u ++ [')']).takeWhile isJsWs = [])
    (hla : lookaheadOk (u ++ [')']) = false) :
    matchParen ('(' :: (u ++ [')'])) = none := by
  have hdw : (u ++ [')']).dropWhile isJsWs = u ++ [')'] := by
    cases hu : u ++ [')'] with
    | nil => rfl
    | cons c cs =>
      rw [hu] at htw
      simp only [List.takeWhile_cons] at htw
      split at htw
      · cases htw
      · rename_i hws
        simp only [Bool.not_eq_true] at hws
        simp [List.dropWhile_cons, hws]
  simp [matchParen, htw, hdw, giveBack, hla]

/-- `lazyBracket` fails on a lookahead-rejected reference: the engine tries
the closing bracket, fails the parenthesised part, extends the label past
the bracket, and finds no further closing bracket. -/
theorem lazyBracket_fail :
    ∀ (l u : List Char), l.all labelCharOk = true →
      u.all (fun c => !(c = ']')) = true →
      (u ++ [')']).takeWhile isJsWs = [] → lookaheadOk (u ++ [')']) = false →
      lazyBracket (l ++ ']' :: '(' :: (u ++ [')'])) = none := by
  intro l
  induction l with
  | nil =>
    intro u _ hu htw hla
    have hnb : (u ++ [')']).all (fun c => !(c = ']')) = true := by
      simp only [List.all_append, Bool.and_eq_true]
      exact ⟨hu, by decide⟩
    have h2 := lazyBracket_none_no_rbracket _ hnb
    have hpl : isLineTerm '(' = false := by decide
    simp [lazyBracket, matchParen_fail u htw hla, h2, hpl]
  | cons c l2 ih =>
    intro u hl hu htw hla
    simp only [List.all_cons, Bool.and_eq_true] at hl
    obtain ⟨hc, hl2⟩ := hl
    have hnb : ¬(c = ']') := by
      intro hcc
      simp [labelCharOk, hcc] at hc
    have hnl : isLineTerm c = false := by
      cases hcc : isLineTerm c
      · rfl
      · simp [labelCharOk, hcc] at hc
    rw [List.cons_append]
    simp [lazyBracket, hnb, hnl, ih u hl2 hu htw hla]

/-- A text without any opening bracket offers no match position. -/
theorem matchLink_none_no_lbracket (c : Char) (cs : List Char)
    (h : (c :: cs).all (fun c => !(c = '[')) = true) : matchLink (c :: cs) = none := by
  simp only [List.all_cons, Bool.and_eq_true] at h
  obtain ⟨hc, hcs⟩ := h
  have hcne : ¬(c = '[') := by simpa using hc
  by_cases hex : c = '!'
  · subst hex
    cases cs with
    | nil => rfl
    | cons c2 cs2 =>
      simp only [List.all_cons, Bool.and_eq_true] at hcs
      have hc2 : ¬(c2 = '[') := by simpa using hcs.1
      simp [matchLink, hc2]
  · simp [matchLink, hex, hcne]

/-- The scanner copies a text without opening brackets verbatim. -/
theorem rewriteScan_no_lbracket (base : String) :
    ∀ (cs : List Char), cs.all (fun c => !(c = '[')) = true →
      rewriteScan base cs = cs := by
  intro cs
  induction cs with
  | nil => intro _; exact rewriteScan_nil base
  | cons c cs ih =>
    intro h
    rw [rewriteScan_none base c cs (matchLink_none_no_lbracket c cs h)]
    simp only [List.all_cons, Bool.and_eq_true] at h
    rw [ih h.2]

/-- Strings with equal character lists are equal. -/
theorem string_eq_of_data (a b : String) (h : a.data = b.data) : a = b := by
  cases a
  cases b
  cases h
  rfl

/-- C7: `_rewriteRemoteContent` on a document fetched from a remote base URL
rewrites a relative link `[l](u)` into the remote-indirection route
`[l](#/remote/<base64 of the URL resolved against the base>)` and a relative
image `![l](u)` into the resolved absolute URL directly, while a reference
the lookahead excludes — an anchor (`#…`), a `data:` URI, an absolute
`http:`/`https:` URL or a protocol-relative `//…` — leaves the text
unchanged. Labels range over bracket-free single-line text and references
over whitespace-free, parenthesis-free text. -/
theorem c7_rewrite_remote_content :
    (∀ (l u base abs : String),
      l.data.all labelCharOk = true →
      u.data.all urlCharOk = true →
      lookaheadOk (u.data ++ [')']) = true →
      resolveUrl u base = some abs →
      rewriteRemoteContent ("[" ++ l ++ "](" ++ u ++ ")") base =
        "[" ++ l ++ "](#/remote/" ++ utf8ToBase64 abs ++ ")" ∧
      rewriteRemoteContent ("![" ++ l ++ "](" ++ u ++ ")") base =
        "![" ++ l ++ "](" ++ abs ++ ")") ∧
    (∀ (l u base : String),
      l.data.all labelCharOk = true →
      l.data.all (fun c => !(c = '[')) = true →
      u.data.all (fun c => !(c = ']')) = true →
      u.data.all (fun c => !(c = '[')) = true →
      (u.data ++ [')']).takeWhile isJsWs = [] →
      lookaheadOk (u.data ++ [')']) = false →
      rewriteRemoteContent ("[" ++ l ++ "](" ++ u ++ ")") base =
        "[" ++ l ++ "](" ++ u ++ ")" ∧
      rewriteRemoteContent ("![" ++ l ++ "](" ++ u ++ ")") base =
        "![" ++ l ++ "](" ++ u ++ ")") := by
  constructor
  · intro l u base abs hl hu hla hres
    have d1 : ("[" : String).data = ['['] := rfl
    have d1b : ("![" : String).data = ['!', '['] := rfl
    have d2 : ("](" : String).data = [']', '('] := rfl
    have d3 : (")" : String).data = [')'] := rfl
    have hres2 : resolveUrl (String.mk u.data) base = some abs := hres
    constructor
    · have hdocL : ("[" ++ l ++ "](" ++ u ++ ")").data =
          '[' :: (l.data ++ ']' :: '(' :: (u.data ++ [')'])) := by
        simp [String.data_append, d1, d2, d3]
      unfold rewriteRemoteContent
      rw [hdocL]
      have hml := matchLink_clean_link l.data u.data [] hl hu hla
      rw [rewriteScan_some base '[' _ false l.data u.data [] hml, rewriteScan_nil]
      simp only [List.length_nil, Nat.sub_zero, List.take_length, List.append_nil]
      simp only [rewriteMatch, hres2]
      apply string_eq_of_data
      have d4 : ("(#/remote/" : String).data =
        ['(', '#', '/', 'r', 'e', 'm', 'o', 't', 'e', '/'] := rfl
      have d5 : ("](#/remote/" : String).data =
        [']', '(', '#', '/', 'r', 'e', 'm', 'o', 't', 'e', '/'] := rfl
      simp [String.data_append, d1, d3, d4, d5]
    · have hdocI : ("![" ++ l ++ "](" ++ u ++ ")").data =
          '!' :: '[' :: (l.data ++ ']' :: '(' :: (u.data ++ [')'])) := by
        simp [String.data_append, d1b, d2, d3]
      unfold rewriteRemoteContent
      rw [hdocI]
      have hml := matchLink_clean_image l.data u.data [] hl hu hla
      rw [rewriteScan_some base '!' _ true l.data u.data [] hml, rewriteScan_nil]
      simp only [List.length_nil, Nat.sub_zero, List.take_length, List.append_nil]
      simp only [rewriteMatch, hres2]
      apply string_eq_of_data
      simp [String.data_append, d1b, d2, d3]
  · intro l u base hl hlnb hune hunl htw hla
    have d1 : ("[" : String).data = ['['] := rfl
    have d1b : ("![" : String).data = ['!', '['] := rfl
    have d2 : ("](" : String).data = [']', '('] := rfl
    have d3 : (")" : String).data = [')'] := rfl
    have hdocL : ("[" ++ l ++ "](" ++ u ++ ")").data =
        '[' :: (l.data ++ ']' :: '(' :: (u.data ++ [')'])) := by
      simp [String.data_append, d1, d2, d3]
    have hdocI : ("![" ++ l ++ "](" ++ u ++ ")").data =
        '!' :: '[' :: (l.data ++ ']' :: '(' :: (u.data ++ [')'])) := by
      simp [String.data_append, d1b, d2, d3]
    have hlb := lazyBracket_fail l.data u.data hl hune htw hla
    have hmlL : matchLink ('[' :: (l.data ++ ']' :: '(' :: (u.data ++ [')']))) = none := by
      simp [matchLink, hlb]
    have hmlI : matchLink
        ('!' :: '[' :: (l.data ++ ']' :: '(' :: (u.data ++ [')']))) = none := by
      simp [matchLink, hlb]
    have hrest : (l.data ++ ']' :: '(' :: (u.data ++ [')'])).all
        (fun c => !(c = '[')) = true := by
      simp only [List.all_append, List.all_cons, Bool.and_eq_true]
      refine ⟨hlnb, by decide, by decide, hunl, by decide⟩
    constructor
    · unfold rewriteRemoteContent
      rw [hdocL, rewriteScan_none base '[' _ hmlL, rewriteScan_no_lbracket base _ hrest,
        ← hdocL]
    · unfold rewriteRemoteContent
      rw [hdocI, rewriteScan_none base '!' _ hmlI, rewriteScan_none base '[' _ hmlL,
        rewriteScan_no_lbracket base _ hrest, ← hdocI]

/-- C7 witness: the specification's own examples — `[a](b.md)` and
`![alt](img.png)` in a document fetched from
`https://example.com/dir/doc.md` — plus an anchor, a `data:` URI and an
absolute URL left unchanged. -/
theorem c7_rewrite_remote_content_witness :
    (resolveUrl "b.md" "https://example.com/dir/doc.md" =
        some "https://example.com/dir/b.md" ∧
      rewriteRemoteContent "[a](b.md)" "https://example.com/dir/doc.md" =
        "[a](#/remote/" ++ utf8ToBase64 "https://example.com/dir/b.md" ++ ")") ∧
    (resolveUrl "img.png" "https://example.com/dir/doc.md" =
        some "https://example.com/dir/img.png" ∧
      rewriteRemoteContent "![alt](img.png)" "https://example.com/dir/doc.md" =
        "![alt](https://example.com/dir/img.png)") ∧
    (rewriteRemoteContent "[a](#sec)" "https://example.com/dir/doc.md" = "[a](#sec)" ∧
      rewriteRemoteContent "[a](data:text/plain,hi)" "https://example.com/dir/doc.md" =
        "[a](data:text/plain,hi)" ∧
      rewriteRemoteContent "![a](https://other.example/x.png)"
        "https://example.com/dir/doc.md" = "![a](https://other.example/x.png)") := by
  refine ⟨⟨by decide, ?_⟩, ⟨by decide, ?_⟩, ?_, ?_, ?_⟩
  · have h := (c7_rewrite_remote_content.1 "a" "b.md" "https://example.com/dir/doc.md"
      "https://example.com/dir/b.md" (by decide) (by decide) (by decide) (by decide)).1
    simpa using h
  · have h := (c7_rewrite_remote_content.1 "alt" "img.png" "https://example.com/dir/doc.md"
      "https://example.com/dir/img.png" (by decide) (by decide) (by decide) (by decide)).2
    simpa using h
  · have h := (c7_rewrite_remote_content.2 "a" "#sec" "https://example.com/dir/doc.md"
      (by decide) (by decide) (by decide) (by decide) (by decide) (by decide)).1
    simpa using h
  · have h := (c7_rewrite_remote_content.2 "a" "data:text/plain,hi"
      "https://example.com/dir/doc.md"
      (by decide) (by decide) (by decide) (by decide) (by decide) (by decide)).1
    simpa using h
  · have h := (c7_rewrite_remote_content.2 "a" "https://other.example/x.png"
      "https://example.com/dir/doc.md"
      (by decide) (by decide) (by decide) (by decide) (by decide) (by decide)).2
    simpa using h

end Shirazeh
